import Mathlib

/-!
Verification of the conditional-request (cache-validation) core of the
static-file serving code in `src/poem/src/web/static_file.rs`.

Modelling conventions (shallow embedding):

* A `SystemTime` is modelled as an integer count of nanoseconds since the
  Unix epoch (`Int`); `duration_since(UNIX_EPOCH)` succeeds exactly when the
  count is nonnegative, yielding `as_secs = t / 10^9` and
  `subsec_nanos = t % 10^9`.
* HTTP dates (`If-Modified-Since`, `If-Unmodified-Since`, `Last-Modified`)
  carry second precision, so they are modelled as `Nat` seconds since the
  epoch; the `headers` collaborator compares them against the modification
  time truncated to seconds, exactly as `httpdate` does.
* MIME types are modelled by their canonical lowercase string rendering
  (the form produced by the `mime` crate constants and `mime_guess`).
* A `Response` records only the fields the claims are about: the status,
  the Content-Type / ETag / Last-Modified / Cache-Control headers and
  whether a body is attached.
* `create_response` returns `Option Response`: `none` models the panic of
  `etag` (`expect("modification time must be after epoch")`) reached when
  the modification time precedes the epoch; file-open errors are outside
  the modelled scope (the inputs start from the obtained metadata).
-/

namespace Poem.Web

/-! ### Lowercase hexadecimal rendering, as Rust `format!("{:x}", n)` -/

/-- One lowercase hexadecimal digit character, as produced by Rust's
`{:x}` formatting for a digit value below 16. -/
def hexChar : Nat → Char
  | 0 => '0' | 1 => '1' | 2 => '2' | 3 => '3'
  | 4 => '4' | 5 => '5' | 6 => '6' | 7 => '7'
  | 8 => '8' | 9 => '9' | 10 => 'a' | 11 => 'b'
  | 12 => 'c' | 13 => 'd' | 14 => 'e' | 15 => 'f'
  | _ => '0'

/-- Fuel-driven little-endian hexadecimal digit list of `n` (empty for 0).
The fuel makes the function structurally recursive, hence kernel-reducible. -/
def hexLoop : Nat → Nat → List Char
  | 0, _ => []
  | fuel + 1, n =>
      if n = 0 then [] else hexChar (n % 16) :: hexLoop fuel (n / 16)

/-- Big-endian lowercase hexadecimal rendering of `n`, as Rust `{:x}`:
the digits of `n` in base 16, with `0` rendered as `"0"`. -/
def hexList (n : Nat) : List Char :=
  if n = 0 then ['0'] else (hexLoop n n).reverse

/-! ### Entity tags and the conditional headers collaborator

The `headers` crate is an external collaborator (spec section 1): entity
tags are strong or weak opaque tags, `If-Match` matches with the strong
comparison, `If-None-Match` with the weak comparison, and each list may be
the wildcard. -/

/-- An entity tag: weak flag plus the opaque tag (the text between the
quotes). -/
structure EntityTag where
  weak : Bool
  tag : String
deriving DecidableEq, Repr

/-- An entity-tag range as carried by `If-Match` / `If-None-Match`:
either the wildcard or a list of entity tags. -/
inductive TagRange where
  | any : TagRange
  | tags : List EntityTag → TagRange
deriving DecidableEq, Repr

/-- Strong comparison of entity tags: both strong and same opaque tag. -/
def strongEq (a b : EntityTag) : Bool :=
  !a.weak && !b.weak && a.tag == b.tag

/-- Weak comparison of entity tags: same opaque tag, weakness ignored. -/
def weakEq (a b : EntityTag) : Bool :=
  a.tag == b.tag

/-- Whether the current validator satisfies an `If-Match` range
(wildcard, or some listed tag strongly equal). -/
def matchMatches (r : TagRange) (cur : EntityTag) : Bool :=
  match r with
  | .any => true
  | .tags l => l.any fun e => strongEq e cur

/-- `IfMatch::precondition_passes`: passes iff the range matches the
current validator. -/
def ifMatchPasses (r : TagRange) (cur : EntityTag) : Bool :=
  matchMatches r cur

/-- Whether the current validator satisfies an `If-None-Match` range
(wildcard, or some listed tag weakly equal). -/
def noneMatchMatches (r : TagRange) (cur : EntityTag) : Bool :=
  match r with
  | .any => true
  | .tags l => l.any fun e => weakEq e cur

/-- `IfNoneMatch::precondition_passes`: passes iff the range does NOT
match the current validator. -/
def ifNoneMatchPasses (r : TagRange) (cur : EntityTag) : Bool :=
  !noneMatchMatches r cur

/-- `IfUnmodifiedSince::precondition_passes(modified)`: the date is at or
after the modification time, both taken at second precision. -/
def ifUnmodifiedSincePasses (date : Nat) (modifiedSecs : Nat) : Bool :=
  modifiedSecs ≤ date

/-- `IfModifiedSince::is_modified(modified)`: the modification time,
truncated to seconds, is strictly after the date. -/
def isModifiedSince (date : Nat) (modifiedSecs : Nat) : Bool :=
  date < modifiedSecs

/-! ### Timestamps -/

/-- Nanoseconds per second. -/
def nanosPerSec : Nat := 1000000000

/-- `Duration::as_secs` of the span from the epoch to the time `t`
(nanoseconds since epoch, `0 ≤ t`). -/
def secsOf (t : Int) : Nat := (t / (nanosPerSec : Int)).toNat

/-- `Duration::subsec_nanos` of the span from the epoch to the time `t`. -/
def nanosOf (t : Int) : Nat := (t % (nanosPerSec : Int)).toNat

/-! ### The validator generator, `etag` -/

/-- The characters between the quotes of the generated entity tag:
`format!("{:x}:{:x}:{:x}:{:x}", ino, len, secs, nanos)`. -/
def etagInnerList (ino len secs nanos : Nat) : List Char :=
  hexList ino ++ ':' :: (hexList len ++ ':' :: (hexList secs ++ ':' :: hexList nanos))

/-- The quoted entity-tag string produced by `etag`, i.e.
`"\"{ino:x}:{len:x}:{secs:x}:{nanos:x}\""`. -/
def etagQuoted (ino len secs nanos : Nat) : String :=
  ⟨'"' :: (etagInnerList ino len secs nanos ++ ['"'])⟩

/-- `fn etag(ino, modified, len) -> ETag`: fails (`expect` panics) exactly
when the modification time precedes the epoch, otherwise produces the
quoted validator from the four components. -/
def etag (ino : Nat) (modified : Int) (len : Nat) : Option String :=
  if modified < 0 then
    none
  else
    some (etagQuoted ino len (secsOf modified) (nanosOf modified))

/-! ### The content-type resolver, `equiv_utf8_text` -/

/-- `fn equiv_utf8_text(ct: Mime) -> Mime`: upgrade the six listed text
types to their explicit UTF-8 variants, pass everything else through. -/
def equiv_utf8_text (ct : String) : String :=
  if ct == "application/javascript" then "application/javascript; charset=utf-8"
  else if ct == "text/html" then "text/html; charset=utf-8"
  else if ct == "text/css" then "text/css; charset=utf-8"
  else if ct == "text/plain" then "text/plain; charset=utf-8"
  else if ct == "text/csv" then "text/csv; charset=utf-8"
  else if ct == "text/tab-separated-values" then "text/tab-separated-values; charset=utf-8"
  else ct

/-! ### Requests, metadata and responses -/

/-- The `StaticFile` extractor: the four parsed conditional headers,
each independently optional. -/
structure StaticFile where
  if_match : Option TagRange
  if_unmodified_since : Option Nat
  if_none_match : Option TagRange
  if_modified_since : Option Nat
deriving DecidableEq, Repr

/-- File metadata as used by `create_response`: inode (`ino`), byte length
(`len`), and the modification time when `metadata.modified()` succeeds
(`none` models the `Err` case). -/
structure FileMetadata where
  ino : Nat
  len : Nat
  modified : Option Int
deriving DecidableEq, Repr

/-- Response status as produced by this core. `ok` is the builder default
carried by the full response. -/
inductive Status where
  | ok : Status
  | notModified : Status
  | preconditionFailed : Status
deriving DecidableEq, Repr

/-- The response fields this core sets: status, the four headers, and
whether a body stream is attached. -/
structure Response where
  status : Status
  contentType : Option String
  etagHeader : Option String
  lastModified : Option Nat
  cacheControl : Option String
  hasBody : Bool
deriving DecidableEq, Repr

/-- The Content-Type header value resolved from the mime guess:
upgraded by `equiv_utf8_text` when `prefer_utf8` is set. -/
def ctOf (guess : Option String) (prefer_utf8 : Bool) : Option String :=
  guess.map fun m => if prefer_utf8 then equiv_utf8_text m else m

/-- The current validator as an entity tag (strong, with the unquoted
generated tag), used for `If-Match` / `If-None-Match` comparisons. -/
def curTag (ino len : Nat) (t : Int) : EntityTag :=
  ⟨false, ⟨etagInnerList ino len (secsOf t) (nanosOf t)⟩⟩

/-- `StaticFile::create_response`, after the file open and stat succeeded:
from the header set, the mime guess for the path, the file metadata and
the `prefer_utf8` flag, produce the response. `none` models the panic of
`etag` on a pre-epoch modification time. -/
def create_response (sf : StaticFile) (guess : Option String)
    (md : FileMetadata) (prefer_utf8 : Bool) : Option Response :=
  let base : Response := ⟨Status.ok, ctOf guess prefer_utf8, none, none, none, false⟩
  match md.modified with
  | none => some { base with hasBody := true }
  | some modified =>
      if modified < 0 then
        none
      else
        let cur := curTag md.ino md.len modified
        if (sf.if_match.elim false fun im => !ifMatchPasses im cur) then
          some { base with status := Status.preconditionFailed }
        else if (sf.if_unmodified_since.elim false
            fun d => !ifUnmodifiedSincePasses d (secsOf modified)) then
          some { base with status := Status.preconditionFailed }
        else if (match sf.if_none_match, sf.if_modified_since with
          | some inm, _ => !ifNoneMatchPasses inm cur
          | none, some d => !isModifiedSince d (secsOf modified)
          | none, none => false) then
          some { base with status := Status.notModified }
        else
          some { base with
                   etagHeader := some (etagQuoted md.ino md.len (secsOf modified) (nanosOf modified)),
                   lastModified := some (secsOf modified),
                   cacheControl := some "public",
                   hasBody := true }

/-- The full (status 200) response with body, Cache-Control, Last-Modified
and ETag, as assembled after all preconditions pass. -/
def fullResponse (guess : Option String) (prefer_utf8 : Bool)
    (ino len : Nat) (t : Int) : Response :=
  ⟨Status.ok, ctOf guess prefer_utf8,
    some (etagQuoted ino len (secsOf t) (nanosOf t)),
    some (secsOf t), some "public", true⟩

/-- The early-return response (412 or 304): the status and the resolved
Content-Type only, with no body. -/
def emptyResponse (guess : Option String) (prefer_utf8 : Bool)
    (st : Status) : Response :=
  ⟨st, ctOf guess prefer_utf8, none, none, none, false⟩

/-- The closed upgrade table stated by the spec: exactly six essences map
to their explicit UTF-8 charset variants. Written from the spec's words,
to be compared with `equiv_utf8_text` as translated from the source. -/
def utf8UpgradeTableSpec : List (String × String) :=
  [("application/javascript", "application/javascript; charset=utf-8"),
   ("text/html", "text/html; charset=utf-8"),
   ("text/css", "text/css; charset=utf-8"),
   ("text/plain", "text/plain; charset=utf-8"),
   ("text/csv", "text/csv; charset=utf-8"),
   ("text/tab-separated-values", "text/tab-separated-values; charset=utf-8")]

/-! ## Helper lemmas -/

/-- `hexChar` is injective on digit values below 16. -/
theorem hexChar_inj {a b : Nat} (ha : a < 16) (hb : b < 16)
    (h : hexChar a = hexChar b) : a = b := by
  interval_cases a <;> interval_cases b <;> revert h <;> decide

/-- No hexadecimal digit character is the separator colon. -/
theorem hexChar_ne_colon {a : Nat} (ha : a < 16) : hexChar a ≠ ':' := by
  interval_cases a <;> decide

/-- With enough fuel, `hexLoop` produces the base-16 digits of `n`. -/
theorem hexLoop_eq (fuel n : Nat) (h : n ≤ fuel) :
    hexLoop fuel n = (Nat.digits 16 n).map hexChar := by
  induction fuel generalizing n with
  | zero =>
      have hn : n = 0 := by omega
      subst hn
      simp [hexLoop]
  | succ fuel ih =>
      by_cases hn : n = 0
      · subst hn; simp [hexLoop]
      · rw [hexLoop, if_neg hn,
          Nat.digits_def' (by norm_num : (1:Nat) < 16) (Nat.pos_of_ne_zero hn),
          List.map_cons, ih (n / 16) (by omega)]

/-- For nonzero `n`, `hexList n` is the reversed digit rendering. -/
theorem hexList_of_ne_zero {m : Nat} (hm : m ≠ 0) :
    hexList m = ((Nat.digits 16 m).map hexChar).reverse := by
  rw [hexList, if_neg hm, hexLoop_eq m m le_rfl]

/-- No character of a hexadecimal rendering is the separator colon. -/
theorem hexList_ne_colon {n : Nat} : ∀ c ∈ hexList n, c ≠ ':' := by
  intro c hc
  unfold hexList at hc
  split at hc
  · simp at hc; subst hc; decide
  · rw [hexLoop_eq n n le_rfl, List.mem_reverse, List.mem_map] at hc
    obtain ⟨d, hd, rfl⟩ := hc
    exact hexChar_ne_colon (Nat.digits_lt_base (by norm_num) hd)

/-- Mapping `hexChar` over lists of digit values below 16 is injective. -/
theorem map_hexChar_inj : ∀ (l1 l2 : List Nat), (∀ x ∈ l1, x < 16) →
    (∀ x ∈ l2, x < 16) → l1.map hexChar = l2.map hexChar → l1 = l2 := by
  intro l1
  induction l1 with
  | nil =>
      intro l2 _ _ h
      cases l2 with
      | nil => rfl
      | cons y ys => simp at h
  | cons x xs ih =>
      intro l2 h1 h2 h
      cases l2 with
      | nil => simp at h
      | cons y ys =>
          simp only [List.map_cons, List.cons.injEq] at h
          have hx : x = y := hexChar_inj (h1 x (by simp)) (h2 y (by simp)) h.1
          have hrest : xs = ys :=
            ih ys (fun z hz => h1 z (by simp [hz])) (fun z hz => h2 z (by simp [hz])) h.2
          rw [hx, hrest]

/-- A nonzero number never renders as the single digit `0`. -/
theorem hexList_singleton_zero {m : Nat} (hm : m ≠ 0) (h : hexList m = ['0']) :
    False := by
  rw [hexList_of_ne_zero hm] at h
  have h' : (Nat.digits 16 m).map hexChar = ['0'] := by
    have := congrArg List.reverse h
    simpa using this
  rcases hdig : Nat.digits 16 m with _ | ⟨d, rest⟩
  · rw [hdig] at h'; simp at h'
  · rw [hdig] at h'
    simp only [List.map_cons, List.cons.injEq, List.map_eq_nil_iff] at h'
    obtain ⟨hchar, hrest⟩ := h'
    have hd16 : d < 16 := Nat.digits_lt_base (by norm_num) (by rw [hdig]; simp)
    have hd0 : d = 0 := by interval_cases d <;> revert hchar <;> decide
    have hm0 : m = 0 := by
      have h0 := Nat.ofDigits_digits 16 m
      rw [hdig, hd0, hrest] at h0
      simpa [Nat.ofDigits] using h0.symm
    exact hm hm0

/-- The hexadecimal rendering is injective. -/
theorem hexList_inj {a b : Nat} (h : hexList a = hexList b) : a = b := by
  by_cases ha : a = 0 <;> by_cases hb : b = 0
  · omega
  · exfalso
    subst ha
    exact hexList_singleton_zero hb (by simpa [hexList] using h.symm)
  · exfalso
    subst hb
    exact hexList_singleton_zero ha (by simpa [hexList] using h)
  · rw [hexList_of_ne_zero ha, hexList_of_ne_zero hb] at h
    have h' := congrArg List.reverse h
    simp only [List.reverse_reverse] at h'
    have hdig := map_hexChar_inj _ _
      (fun x hx => Nat.digits_lt_base (by norm_num) hx)
      (fun x hx => Nat.digits_lt_base (by norm_num) hx) h'
    have h0 := congrArg (Nat.ofDigits 16) hdig
    rwa [Nat.ofDigits_digits, Nat.ofDigits_digits] at h0

/-- Splitting at an unambiguous separator: if the pieces before the first
colon are colon-free, equal concatenations have equal pieces. -/
theorem sep_split : ∀ (a c b d : List Char), (∀ x ∈ a, x ≠ ':') →
    (∀ x ∈ c, x ≠ ':') → a ++ ':' :: b = c ++ ':' :: d → a = c ∧ b = d := by
  intro a
  induction a with
  | nil =>
      intro c b d _ hc h
      cases c with
      | nil => simp only [List.nil_append, List.cons.injEq] at h; exact ⟨rfl, h.2⟩
      | cons y ys =>
          simp only [List.nil_append, List.cons_append, List.cons.injEq] at h
          exact absurd h.1.symm (hc y (by simp))
  | cons x xs ih =>
      intro c b d ha hc h
      cases c with
      | nil =>
          simp only [List.cons_append, List.nil_append, List.cons.injEq] at h
          exact absurd h.1 (ha x (by simp))
      | cons y ys =>
          simp only [List.cons_append, List.cons.injEq] at h
          obtain ⟨hxy, h2⟩ := h
          obtain ⟨h3, h4⟩ := ih ys b d
            (fun z hz => ha z (by simp [hz]))
            (fun z hz => hc z (by simp [hz])) h2
          exact ⟨by rw [hxy, h3], h4⟩

/-- The unquoted validator characters determine the four components. -/
theorem etagInnerList_inj {i l s n i' l' s' n' : Nat}
    (h : etagInnerList i l s n = etagInnerList i' l' s' n') :
    i = i' ∧ l = l' ∧ s = s' ∧ n = n' := by
  unfold etagInnerList at h
  obtain ⟨h1, h⟩ := sep_split _ _ _ _ hexList_ne_colon hexList_ne_colon h
  obtain ⟨h2, h⟩ := sep_split _ _ _ _ hexList_ne_colon hexList_ne_colon h
  obtain ⟨h3, h4⟩ := sep_split _ _ _ _ hexList_ne_colon hexList_ne_colon h
  exact ⟨hexList_inj h1, hexList_inj h2, hexList_inj h3, hexList_inj h4⟩

/-- Quoted validator strings are equal iff their four components are. -/
theorem etagQuoted_eq_iff (i l s n i' l' s' n' : Nat) :
    etagQuoted i l s n = etagQuoted i' l' s' n' ↔
      (i = i' ∧ l = l' ∧ s = s' ∧ n = n') := by
  constructor
  · intro h
    have h' : '"' :: (etagInnerList i l s n ++ ['"']) =
        '"' :: (etagInnerList i' l' s' n' ++ ['"']) := congrArg String.data h
    simp only [List.cons.injEq, true_and] at h'
    exact etagInnerList_inj (List.append_cancel_right h')
  · rintro ⟨rfl, rfl, rfl, rfl⟩
    rfl

/-- Unfolding of `create_response` when a post-epoch modification time is
available: the three guards in source order, then the full response. -/
theorem create_response_some (sf : StaticFile) (guess : Option String)
    (prefer : Bool) (ino len : Nat) (t : Int) (ht : 0 ≤ t) :
    create_response sf guess ⟨ino, len, some t⟩ prefer =
      some (
        if (sf.if_match.elim false fun im => !ifMatchPasses im (curTag ino len t)) then
          emptyResponse guess prefer Status.preconditionFailed
        else if (sf.if_unmodified_since.elim false
            fun d => !ifUnmodifiedSincePasses d (secsOf t)) then
          emptyResponse guess prefer Status.preconditionFailed
        else if (match sf.if_none_match, sf.if_modified_since with
          | some inm, _ => !ifNoneMatchPasses inm (curTag ino len t)
          | none, some d => !isModifiedSince d (secsOf t)
          | none, none => false) then
          emptyResponse guess prefer Status.notModified
        else fullResponse guess prefer ino len t) := by
  simp only [create_response]
  rw [if_neg (not_lt.mpr ht)]
  split_ifs <;> rfl

/-- `create_response` on metadata with no modification time. -/
theorem create_response_no_modified (sf : StaticFile) (guess : Option String)
    (prefer : Bool) (ino len : Nat) :
    create_response sf guess ⟨ino, len, none⟩ prefer =
      some { emptyResponse guess prefer Status.ok with hasBody := true } := rfl

/-- `create_response` on a pre-epoch modification time reaches the panic
of the validator generator. -/
theorem create_response_pre_epoch (sf : StaticFile) (guess : Option String)
    (prefer : Bool) (ino len : Nat) (t : Int) (ht : t < 0) :
    create_response sf guess ⟨ino, len, some t⟩ prefer = none := by
  simp only [create_response]
  rw [if_pos ht]

/-! ## Claim theorems -/

/-- Claim C1, counterexample: a request whose metadata yields a
modification time (the epoch) and whose outcome is NotModified receives a
response that carries neither the ETag nor the Last-Modified header, so
the claim that both headers are present for every outcome is false. -/
theorem headers_absent_on_not_modified_cex :
    create_response ⟨none, none, some TagRange.any, none⟩ none ⟨0, 0, some 0⟩ false =
      some (emptyResponse none false Status.notModified) ∧
    (emptyResponse none false Status.notModified).etagHeader = none ∧
    (emptyResponse none false Status.notModified).lastModified = none :=
  ⟨by decide, rfl, rfl⟩

/-- Claim C1, amended: for every request whose metadata yields a
(post-epoch) modification time, the response carries the ETag and
Last-Modified headers exactly when the outcome is Full; the NotModified
and PreconditionFailed early returns carry neither header. -/
theorem headers_exactly_on_full_outcome (sf : StaticFile) (guess : Option String)
    (prefer : Bool) (ino len : Nat) (t : Int) (r : Response) (ht : 0 ≤ t)
    (h : create_response sf guess ⟨ino, len, some t⟩ prefer = some r) :
    (r.status = Status.ok →
      r.etagHeader = some (etagQuoted ino len (secsOf t) (nanosOf t)) ∧
      r.lastModified = some (secsOf t)) ∧
    (r.status ≠ Status.ok → r.etagHeader = none ∧ r.lastModified = none) := by
  rw [create_response_some sf guess prefer ino len t ht] at h
  have hr := Option.some.inj h
  split_ifs at hr <;> subst hr <;> simp [emptyResponse, fullResponse]

/-- Claim C1, witness for the amended theorem at a concrete full
response. -/
theorem headers_exactly_on_full_outcome_witness :
    ((fullResponse none false 0 0 0).status = Status.ok →
      (fullResponse none false 0 0 0).etagHeader =
        some (etagQuoted 0 0 (secsOf 0) (nanosOf 0)) ∧
      (fullResponse none false 0 0 0).lastModified = some (secsOf 0)) ∧
    ((fullResponse none false 0 0 0).status ≠ Status.ok →
      (fullResponse none false 0 0 0).etagHeader = none ∧
      (fullResponse none false 0 0 0).lastModified = none) :=
  headers_exactly_on_full_outcome ⟨none, none, none, none⟩ none false 0 0 0
    (fullResponse none false 0 0 0) (by decide) (by decide)

/-- Claim C2: with a modification time available and If-Match and
If-Unmodified-Since passing or absent, a present If-None-Match alone
determines the outcome: NotModified when the current validator satisfies
it, Full when it does not. If-Modified-Since never takes part: the right
hand side does not depend on it. -/
theorem if_none_match_determines_outcome (sf : StaticFile)
    (guess : Option String) (prefer : Bool) (ino len : Nat) (t : Int)
    (inm : TagRange) (ht : 0 ≤ t)
    (him : ∀ im, sf.if_match = some im → ifMatchPasses im (curTag ino len t) = true)
    (hius : ∀ d, sf.if_unmodified_since = some d → secsOf t ≤ d)
    (hinm : sf.if_none_match = some inm) :
    create_response sf guess ⟨ino, len, some t⟩ prefer =
      some (if noneMatchMatches inm (curTag ino len t) then
              emptyResponse guess prefer Status.notModified
            else fullResponse guess prefer ino len t) := by
  have hm : (sf.if_match.elim false fun im => !ifMatchPasses im (curTag ino len t)) = false := by
    rcases hmm : sf.if_match with _ | im
    · rfl
    · simp [him im hmm]
  have hu : (sf.if_unmodified_since.elim false
      fun d => !ifUnmodifiedSincePasses d (secsOf t)) = false := by
    rcases huu : sf.if_unmodified_since with _ | d
    · rfl
    · simp [ifUnmodifiedSincePasses, hius d huu]
  rw [create_response_some sf guess prefer ino len t ht, hm, hu]
  simp [hinm, ifNoneMatchPasses]

/-- Claim C2, witness: a non-matching If-None-Match together with an
If-Modified-Since that would indicate not-modified still yields the full
response (precedence of step 3 over step 4). -/
theorem if_none_match_determines_outcome_witness :
    create_response ⟨none, none, some (TagRange.tags []), some 5⟩ none
        ⟨0, 0, some 0⟩ false =
      some (if noneMatchMatches (TagRange.tags []) (curTag 0 0 0) then
              emptyResponse none false Status.notModified
            else fullResponse none false 0 0 0) :=
  if_none_match_determines_outcome ⟨none, none, some (TagRange.tags []), some 5⟩
    none false 0 0 0 (TagRange.tags []) (by decide)
    (fun im h => nomatch h) (fun d h => nomatch h) rfl

/-- Claim C3: with a modification time available, a present If-Match that
the current validator does not satisfy yields PreconditionFailed,
whatever the other three conditional headers hold. -/
theorem if_match_failure_precondition_failed (sf : StaticFile)
    (guess : Option String) (prefer : Bool) (ino len : Nat) (t : Int)
    (ht : 0 ≤ t) (im : TagRange) (him : sf.if_match = some im)
    (hfail : ifMatchPasses im (curTag ino len t) = false) :
    create_response sf guess ⟨ino, len, some t⟩ prefer =
      some (emptyResponse guess prefer Status.preconditionFailed) := by
  rw [create_response_some sf guess prefer ino len t ht, him]
  simp [hfail]

/-- Claim C3, witness: a failing If-Match wins even against an
If-None-Match wildcard and a present If-Modified-Since. -/
theorem if_match_failure_precondition_failed_witness :
    create_response ⟨some (TagRange.tags []), none, some TagRange.any, some 3⟩ none
        ⟨0, 0, some 0⟩ false =
      some (emptyResponse none false Status.preconditionFailed) :=
  if_match_failure_precondition_failed
    ⟨some (TagRange.tags []), none, some TagRange.any, some 3⟩ none false 0 0 0
    (by decide) (TagRange.tags []) rfl (by decide)

/-- Claim C4: with If-Match passing or absent and If-Unmodified-Since
present, a modification time strictly after the date (at the second
precision HTTP dates carry) yields PreconditionFailed; otherwise this
step does not fail and the evaluation proceeds exactly as if the header
were absent. -/
theorem if_unmodified_since_step (sf : StaticFile) (guess : Option String)
    (prefer : Bool) (ino len : Nat) (t : Int) (d : Nat) (ht : 0 ≤ t)
    (him : ∀ im, sf.if_match = some im → ifMatchPasses im (curTag ino len t) = true)
    (hius : sf.if_unmodified_since = some d) :
    (d < secsOf t →
      create_response sf guess ⟨ino, len, some t⟩ prefer =
        some (emptyResponse guess prefer Status.preconditionFailed)) ∧
    (secsOf t ≤ d →
      create_response sf guess ⟨ino, len, some t⟩ prefer =
        create_response { sf with if_unmodified_since := none } guess
          ⟨ino, len, some t⟩ prefer) := by
  have hm : (sf.if_match.elim false fun im => !ifMatchPasses im (curTag ino len t)) = false := by
    rcases hmm : sf.if_match with _ | im
    · rfl
    · simp [him im hmm]
  constructor
  · intro hlt
    rw [create_response_some sf guess prefer ino len t ht, hm, hius]
    simp [ifUnmodifiedSincePasses, Nat.not_le.mpr hlt]
  · intro hle
    rw [create_response_some sf guess prefer ino len t ht,
      create_response_some { sf with if_unmodified_since := none } guess prefer ino len t ht,
      hm, hius]
    simp [ifUnmodifiedSincePasses, hle]

/-- Claim C4, witness: a date before the modification time yields 412. -/
theorem if_unmodified_since_step_witness :
    create_response ⟨none, some 5, none, none⟩ none
        ⟨0, 0, some (7000000000 : Int)⟩ false =
      some (emptyResponse none false Status.preconditionFailed) :=
  (if_unmodified_since_step ⟨none, some 5, none, none⟩ none false 0 0
    7000000000 5 (by decide) (fun im h => nomatch h) rfl).1 (by decide)

/-- Claim C5: with If-Match and If-Unmodified-Since passing or absent,
If-None-Match absent and If-Modified-Since present, the outcome is
NotModified when the modification time is not after the date (equality
included), and Full when it is strictly after, at the second precision
HTTP dates carry. -/
theorem if_modified_since_step (sf : StaticFile) (guess : Option String)
    (prefer : Bool) (ino len : Nat) (t : Int) (d : Nat) (ht : 0 ≤ t)
    (him : ∀ im, sf.if_match = some im → ifMatchPasses im (curTag ino len t) = true)
    (hius : ∀ e, sf.if_unmodified_since = some e → secsOf t ≤ e)
    (hinm : sf.if_none_match = none)
    (hims : sf.if_modified_since = some d) :
    create_response sf guess ⟨ino, len, some t⟩ prefer =
      some (if secsOf t ≤ d then emptyResponse guess prefer Status.notModified
            else fullResponse guess prefer ino len t) := by
  have hm : (sf.if_match.elim false fun im => !ifMatchPasses im (curTag ino len t)) = false := by
    rcases hmm : sf.if_match with _ | im
    · rfl
    · simp [him im hmm]
  have hu : (sf.if_unmodified_since.elim false
      fun e => !ifUnmodifiedSincePasses e (secsOf t)) = false := by
    rcases huu : sf.if_unmodified_since with _ | e
    · rfl
    · simp [ifUnmodifiedSincePasses, hius e huu]
  rw [create_response_some sf guess prefer ino len t ht, hm, hu]
  simp only [hinm, hims, isModifiedSince]
  by_cases hle : secsOf t ≤ d
  · simp [hle, Nat.not_lt.mpr hle]
  · simp [hle, Nat.lt_of_not_le hle]

/-- Claim C5, witness: the modification time 7 s is strictly after the
date 100 s is false, so the outcome at date 100 is NotModified; the
equality is evaluated on the stated conditional form. -/
theorem if_modified_since_step_witness :
    create_response ⟨none, none, none, some 100⟩ none
        ⟨0, 0, some (7000000000 : Int)⟩ false =
      some (if secsOf 7000000000 ≤ 100 then
              emptyResponse none false Status.notModified
            else fullResponse none false 0 0 7000000000) :=
  if_modified_since_step ⟨none, none, none, some 100⟩ none false 0 0
    7000000000 100 (by decide) (fun im h => nomatch h) (fun e h => nomatch h)
    rfl rfl

/-- Claim C6: when the metadata yields no modification time, conditional
evaluation is skipped entirely: whatever the four conditional headers
hold, the outcome is the body-bearing Full response, never NotModified or
PreconditionFailed. -/
theorem no_modified_time_serves_full (sf : StaticFile) (guess : Option String)
    (prefer : Bool) (ino len : Nat) :
    create_response sf guess ⟨ino, len, none⟩ prefer =
      some { emptyResponse guess prefer Status.ok with hasBody := true } := rfl

/-- Claim C7: the generated validator string is the quoted colon-joined
hexadecimal rendering of the four components, and two validator strings
are equal exactly when identity, size, seconds and nanoseconds all
agree. -/
theorem etag_eq_iff_components (i l s n i' l' s' n' : Nat) :
    etagQuoted i l s n = etagQuoted i' l' s' n' ↔
      (i = i' ∧ l = l' ∧ s = s' ∧ n = n') :=
  etagQuoted_eq_iff i l s n i' l' s' n'

/-- Claim C8: validator generation succeeds exactly on modification times
at or after the epoch, and reaches its failure branch exactly on times
strictly before it. -/
theorem etag_fails_iff_pre_epoch (ino : Nat) (t : Int) (len : Nat) :
    ((etag ino t len).isSome = true ↔ 0 ≤ t) ∧
    (etag ino t len = none ↔ t < 0) := by
  unfold etag
  split_ifs with h
  · refine ⟨⟨fun hs => by simp at hs, fun h0 => absurd h h0.not_lt⟩, by simp [h]⟩
  · refine ⟨by simp [Int.not_lt.mp h], ⟨fun hn => by simp at hn, fun h0 => absurd h0 h⟩⟩

/-- Claim C9: the UTF-8 upgrade function agrees pointwise with the closed
six-entry table written from the spec: the six listed essences map to
their charset variants and every other type passes through unchanged. -/
theorem equiv_utf8_text_upgrade_table (ct : String) :
    equiv_utf8_text ct = ((utf8UpgradeTableSpec.lookup ct).getD ct) := by
  by_cases h1 : ct = "application/javascript"
  · subst h1; rfl
  by_cases h2 : ct = "text/html"
  · subst h2; rfl
  by_cases h3 : ct = "text/css"
  · subst h3; rfl
  by_cases h4 : ct = "text/plain"
  · subst h4; rfl
  by_cases h5 : ct = "text/csv"
  · subst h5; rfl
  by_cases h6 : ct = "text/tab-separated-values"
  · subst h6; rfl
  have h1' : (ct == "application/javascript") = false := by simp [beq_iff_eq, h1]
  have h2' : (ct == "text/html") = false := by simp [beq_iff_eq, h2]
  have h3' : (ct == "text/css") = false := by simp [beq_iff_eq, h3]
  have h4' : (ct == "text/plain") = false := by simp [beq_iff_eq, h4]
  have h5' : (ct == "text/csv") = false := by simp [beq_iff_eq, h5]
  have h6' : (ct == "text/tab-separated-values") = false := by simp [beq_iff_eq, h6]
  simp [equiv_utf8_text, utf8UpgradeTableSpec, List.lookup,
    h1', h2', h3', h4', h5', h6']

/-- Claim C10: every NotModified or PreconditionFailed response still
carries the Content-Type header resolved from the path (upgraded when
`prefer_utf8` is set), and carries no body. -/
theorem early_return_keeps_content_type (sf : StaticFile)
    (guess : Option String) (md : FileMetadata) (prefer : Bool) (r : Response)
    (h : create_response sf guess md prefer = some r)
    (hst : r.status = Status.notModified ∨ r.status = Status.preconditionFailed) :
    r.contentType = ctOf guess prefer ∧ r.hasBody = false := by
  rcases md with ⟨ino, len, _ | t⟩
  · rw [create_response_no_modified] at h
    have hr := Option.some.inj h
    subst hr
    simp [emptyResponse] at hst
  · rcases Int.lt_or_le t 0 with hneg | hpos
    · rw [create_response_pre_epoch sf guess prefer ino len t hneg] at h
      exact absurd h (by simp)
    · rw [create_response_some sf guess prefer ino len t hpos] at h
      have hr := Option.some.inj h
      split_ifs at hr <;> subst hr <;> simp_all [emptyResponse, fullResponse, ctOf]

/-- Claim C10, witness: a NotModified response for an `.html` request with
the UTF-8 preference keeps its upgraded Content-Type and has no body. -/
theorem early_return_keeps_content_type_witness :
    (emptyResponse (some "text/html") true Status.notModified).contentType =
      ctOf (some "text/html") true ∧
    (emptyResponse (some "text/html") true Status.notModified).hasBody = false :=
  early_return_keeps_content_type ⟨none, none, some TagRange.any, none⟩
    (some "text/html") ⟨0, 0, some 0⟩ true
    (emptyResponse (some "text/html") true Status.notModified)
    (by decide) (Or.inl rfl)

end Poem.Web
